import Mathlib

/-!
Shallow embedding of the PWM actuation core of the robocar-pca9685 repository
(src/donkeycar/parts/actuator.py and src/donkeycar/utils.py).

Python floats are modelled by exact rationals (ℚ); Python ints by ℤ.
Raising an exception is modelled by returning `Except.error`.
Calls to the external pin driver (start, duty_cycle writes) and to
`time.sleep` are recorded in an event trace, as are the actuator-level
`controller.set_pulse` calls, so that side-effect claims about ordering and
call counts can be stated.
-/

/-- Trace events: hardware pin-driver calls made by the `PulseController`
(`start`, `dutyCycle`), `time.sleep` waits (in milliseconds), and
actuator-level calls into the controller (`ctrlSetPulse`). -/
inductive HwEvent where
  | start : HwEvent
  | dutyCycle : ℚ → HwEvent
  | ctrlSetPulse : ℤ → HwEvent
  | sleepMs : ℚ → HwEvent
deriving DecidableEq, Repr

/-- Pin states from donkeycar.parts.pins (external collaborator: only the
distinction NOT_STARTED vs already started matters to the embedded code). -/
inductive PinState where
  | NOT_STARTED : PinState
  | STARTED : PinState
deriving DecidableEq, Repr

/-- Python's built-in int() applied to a float: truncation toward zero. -/
def py_int (q : ℚ) : ℤ := if 0 ≤ q then ⌊q⌋ else ⌈q⌉

/-- utils.map_range: linear mapping between two ranges of values.
Source computes XY_ratio = X_range / Y_range, then
y = ((x - X_min) / XY_ratio + Y_min) // 1 and returns int(y).
Python raises ZeroDivisionError when Y_range = 0 (computing XY_ratio) or,
failing that, when XY_ratio = 0 (computing the quotient by it); `// 1` on a
float is floor, and int() of the already-floored value is exact. -/
def map_range (x Xmin Xmax Ymin Ymax : ℚ) : Except String ℤ :=
  let Xrange := Xmax - Xmin
  let Yrange := Ymax - Ymin
  if Yrange = 0 then .error "division by zero"
  else
    let XYratio := Xrange / Yrange
    if XYratio = 0 then .error "division by zero"
    else .ok ⌊(x - Xmin) / XYratio + Ymin⌋

/-- actuator.duty_cycle: pulse length in ms and frequency to a 0..1 duty
fraction (caller guarantees frequency_hz > 0). -/
def duty_cycle (pulse_len_ms frequency_hz : ℚ) : ℚ :=
  let ms_per_cycle := 1000 / frequency_hz
  pulse_len_ms / ms_per_cycle

/-- actuator.pulse_ms: 12-bit pulse code to pulse width; raises ValueError
outside 0..4095. -/
def pulse_ms (pulse_bits : ℤ) : Except String ℚ :=
  if pulse_bits < 0 ∨ pulse_bits > 4095 then
    .error "pulse_bits must be in range 0 to 4095 (12bit integer)"
  else .ok ((pulse_bits : ℚ) / 4095)

/-- actuator.PulseController state: scale factor, inverted flag, and the
started flag (initialized from the pin's hardware state in __init__).
The pin handle itself is external; its effects appear in event traces. -/
structure PulseController where
  scale : ℚ
  inverted : Bool
  started : Bool
deriving DecidableEq, Repr

/-- PulseController.__init__: started = (pwm_pin.state() != PinState.NOT_STARTED). -/
def PulseController.init (pin_state : PinState) (pwm_scale : ℚ) (pwm_inverted : Bool) :
    PulseController :=
  { scale := pwm_scale, inverted := pwm_inverted,
    started := decide (pin_state ≠ PinState.NOT_STARTED) }

/-- PulseController.set_pulse: range-check the 12-bit code, lazily start the
pin once, invert if configured, and write int(pulse * scale) / 4095 as the
duty-cycle fraction. Returns the updated controller and the pin-driver calls
it made. -/
def PulseController.set_pulse (c : PulseController) (pulse : ℤ) :
    Except String (PulseController × List HwEvent) :=
  if pulse < 0 ∨ pulse > 4095 then .error "pulse must be in range 0 to 4095"
  else
    let startEvents : List HwEvent := if c.started then [] else [HwEvent.start]
    let c1 : PulseController := if c.started then c else { c with started := true }
    let pulse1 : ℤ := if c1.inverted then 4095 - pulse else pulse
    .ok (c1, startEvents ++ [HwEvent.dutyCycle ((py_int ((pulse1 : ℚ) * c1.scale) : ℚ) / 4095)])

/-- PulseController.run: alias for set_pulse. -/
def PulseController.run (c : PulseController) (pulse : ℤ) :
    Except String (PulseController × List HwEvent) :=
  c.set_pulse pulse

/-- A sequence of set_pulse calls on one controller, threading state and
concatenating the emitted pin-driver calls. -/
def PulseController.set_pulses (c : PulseController) (codes : List ℤ) :
    Except String (PulseController × List HwEvent) :=
  match codes with
  | [] => .ok (c, [])
  | p :: ps =>
    match c.set_pulse p with
    | .error e => .error e
    | .ok (c1, e1) =>
      match c1.set_pulses ps with
      | .error e => .error e
      | .ok (c2, e2) => .ok (c2, e1 ++ e2)

/-- Number of hardware start() invocations in a trace. -/
def startCount (events : List HwEvent) : ℕ :=
  events.countP (fun e => match e with | HwEvent.start => true | _ => false)

/-- Keep only the actuator-level events of a trace: calls into the
controller and sleeps (dropping the pin-driver internals). -/
def ctrlLevel (e : HwEvent) : Bool :=
  match e with
  | HwEvent.ctrlSetPulse _ => true
  | HwEvent.sleepMs _ => true
  | _ => false

/-- actuator.PWMSteering state. The dynamic capability check of __init__
(controller is not None and has a callable set_pulse) is enforced here by
the type of the controller field. -/
structure PWMSteering where
  controller : PulseController
  left_pulse : ℤ
  right_pulse : ℤ
  pulse : ℤ
  running : Bool
deriving DecidableEq, Repr

def PWMSteering.LEFT_ANGLE : ℚ := -1

def PWMSteering.RIGHT_ANGLE : ℚ := 1

/-- PWMSteering.__init__: stores the endpoints and the pulse for angle 0,
computed by map_range (which can raise), and sets running. -/
def PWMSteering.init (controller : PulseController) (left_pulse right_pulse : ℤ) :
    Except String PWMSteering :=
  match map_range 0 PWMSteering.LEFT_ANGLE PWMSteering.RIGHT_ANGLE
          (left_pulse : ℚ) (right_pulse : ℚ) with
  | .error e => .error e
  | .ok p =>
    .ok { controller := controller, left_pulse := left_pulse, right_pulse := right_pulse,
          pulse := p, running := true }

/-- PWMSteering.run_threaded: map the angle to a pulse code and store it.
No controller or pin call is made, hence the empty trace. -/
def PWMSteering.run_threaded (s : PWMSteering) (angle : ℚ) :
    Except String (PWMSteering × List HwEvent) :=
  match map_range angle PWMSteering.LEFT_ANGLE PWMSteering.RIGHT_ANGLE
          (s.left_pulse : ℚ) (s.right_pulse : ℚ) with
  | .error e => .error e
  | .ok p => .ok ({ s with pulse := p }, [])

/-- PWMSteering.run: run_threaded followed by a synchronous set_pulse of the
stored value. -/
def PWMSteering.run (s : PWMSteering) (angle : ℚ) :
    Except String (PWMSteering × List HwEvent) :=
  match s.run_threaded angle with
  | .error e => .error e
  | .ok (s1, e1) =>
    match s1.controller.set_pulse s1.pulse with
    | .error e => .error e
    | .ok (c1, e2) =>
      .ok ({ s1 with controller := c1 }, e1 ++ [HwEvent.ctrlSetPulse s1.pulse] ++ e2)

/-- PWMSteering.shutdown: self.pulse = 0; time.sleep(0.3); self.running = False. -/
def PWMSteering.shutdown (s : PWMSteering) : PWMSteering × List HwEvent :=
  ({ s with pulse := 0, running := false }, [HwEvent.sleepMs 300])

/-- actuator.PWMThrottle state. -/
structure PWMThrottle where
  controller : PulseController
  max_pulse : ℤ
  min_pulse : ℤ
  zero_pulse : ℤ
  pulse : ℤ
  running : Bool
deriving DecidableEq, Repr

def PWMThrottle.MIN_THROTTLE : ℚ := -1

def PWMThrottle.MAX_THROTTLE : ℚ := 1

/-- PWMThrottle.__init__: store the three endpoints, set pulse = zero_pulse,
then calibrate the ESC: set_pulse(max_pulse); sleep(0.01);
set_pulse(min_pulse); sleep(0.01); set_pulse(zero_pulse); sleep(1);
finally running = True. -/
def PWMThrottle.init (controller : PulseController) (max_pulse min_pulse zero_pulse : ℤ) :
    Except String (PWMThrottle × List HwEvent) :=
  match controller.set_pulse max_pulse with
  | .error e => .error e
  | .ok (c1, e1) =>
    match c1.set_pulse min_pulse with
    | .error e => .error e
    | .ok (c2, e2) =>
      match c2.set_pulse zero_pulse with
      | .error e => .error e
      | .ok (c3, e3) =>
        .ok ({ controller := c3, max_pulse := max_pulse, min_pulse := min_pulse,
               zero_pulse := zero_pulse, pulse := zero_pulse, running := true },
             [HwEvent.ctrlSetPulse max_pulse] ++ e1 ++ [HwEvent.sleepMs 10]
             ++ [HwEvent.ctrlSetPulse min_pulse] ++ e2 ++ [HwEvent.sleepMs 10]
             ++ [HwEvent.ctrlSetPulse zero_pulse] ++ e3 ++ [HwEvent.sleepMs 1000])

/-- PWMThrottle.run_threaded: pick the forward segment (zero..max over 0..1)
when throttle > 0, else the reverse segment (min..zero over -1..0), and store
the mapped pulse. No controller or pin call is made. -/
def PWMThrottle.run_threaded (t : PWMThrottle) (throttle : ℚ) :
    Except String (PWMThrottle × List HwEvent) :=
  if throttle > 0 then
    match map_range throttle 0 PWMThrottle.MAX_THROTTLE
            (t.zero_pulse : ℚ) (t.max_pulse : ℚ) with
    | .error e => .error e
    | .ok p => .ok ({ t with pulse := p }, [])
  else
    match map_range throttle PWMThrottle.MIN_THROTTLE 0
            (t.min_pulse : ℚ) (t.zero_pulse : ℚ) with
    | .error e => .error e
    | .ok p => .ok ({ t with pulse := p }, [])

/-- PWMThrottle.run: run_threaded followed by a synchronous set_pulse. -/
def PWMThrottle.run (t : PWMThrottle) (throttle : ℚ) :
    Except String (PWMThrottle × List HwEvent) :=
  match t.run_threaded throttle with
  | .error e => .error e
  | .ok (t1, e1) =>
    match t1.controller.set_pulse t1.pulse with
    | .error e => .error e
    | .ok (c1, e2) =>
      .ok ({ t1 with controller := c1 }, e1 ++ [HwEvent.ctrlSetPulse t1.pulse] ++ e2)

/-- PWMThrottle.shutdown: self.run(0); self.running = False. -/
def PWMThrottle.shutdown (t : PWMThrottle) : Except String (PWMThrottle × List HwEvent) :=
  match t.run 0 with
  | .error e => .error e
  | .ok (t1, e1) => .ok ({ t1 with running := false }, e1)

/-! ## Helper lemmas -/

theorem py_int_of_nonneg {q : ℚ} (h : 0 ≤ q) : py_int q = ⌊q⌋ := if_pos h

theorem map_range_ok (x Xmin Xmax Ymin Ymax : ℚ)
    (hY : Ymax - Ymin ≠ 0) (hX : Xmax - Xmin ≠ 0) :
    map_range x Xmin Xmax Ymin Ymax =
      .ok ⌊(x - Xmin) * (Ymax - Ymin) / (Xmax - Xmin) + Ymin⌋ := by
  simp only [map_range]
  rw [if_neg hY, if_neg (div_ne_zero hX hY), div_div_eq_mul_div]

theorem map_range_zero_Yrange (x Xmin Xmax Ymin Ymax : ℚ) (hY : Ymax - Ymin = 0) :
    map_range x Xmin Xmax Ymin Ymax = .error "division by zero" := by
  simp only [map_range]
  rw [if_pos hY]

theorem set_pulse_ok (c : PulseController) (pulse : ℤ) (h0 : 0 ≤ pulse) (h1 : pulse ≤ 4095) :
    c.set_pulse pulse = .ok ({ c with started := true },
      (if c.started then [] else [HwEvent.start]) ++
      [HwEvent.dutyCycle
        ((py_int (((if c.inverted then 4095 - pulse else pulse : ℤ) : ℚ) * c.scale) : ℚ) / 4095)]) := by
  obtain ⟨sc, inv, st⟩ := c
  simp only [PulseController.set_pulse]
  rw [if_neg (by omega : ¬(pulse < 0 ∨ pulse > 4095))]
  cases st <;> rfl

theorem set_pulse_err (c : PulseController) (pulse : ℤ) (h : pulse < 0 ∨ pulse > 4095) :
    c.set_pulse pulse = .error "pulse must be in range 0 to 4095" := by
  simp only [PulseController.set_pulse]
  rw [if_pos h]

/-! ## Claim theorems -/

/-- C8: pulse_ms fails with a range error exactly when the code is outside
[0, 4095], and for every code in [0, 4095] it returns code / 4095. -/
theorem pulse_ms_spec :
    (∀ code : ℤ, (code < 0 ∨ code > 4095) →
        pulse_ms code = .error "pulse_bits must be in range 0 to 4095 (12bit integer)")
  ∧ (∀ code : ℤ, 0 ≤ code → code ≤ 4095 → pulse_ms code = .ok ((code : ℚ) / 4095)) := by
  constructor
  · intro code h
    simp only [pulse_ms]
    rw [if_pos h]
  · intro code h0 h1
    simp only [pulse_ms]
    rw [if_neg (by omega : ¬(code < 0 ∨ code > 4095))]

/-- C8 witness: pulse_ms at concrete codes 5000 (error) and 819 (value). -/
theorem pulse_ms_spec_witness :
    pulse_ms 5000 = .error "pulse_bits must be in range 0 to 4095 (12bit integer)" ∧
    pulse_ms 819 = .ok ((819 : ℚ) / 4095) :=
  ⟨pulse_ms_spec.1 5000 (by omega), pulse_ms_spec.2 819 (by omega) (by omega)⟩

/-- C3 counterexample: with scale = -1/2 (inverted = false, started pin),
set_pulse 3 writes int(3 * -1/2) / 4095 = -1/4095, while the claimed
floor(3 * -1/2) / 4095 would be -2/4095: the claim's floor formula is false. -/
theorem set_pulse_floor_counterexample :
    (PulseController.mk (-(1/2)) false true).set_pulse 3 =
      .ok (PulseController.mk (-(1/2)) false true, [HwEvent.dutyCycle (-1 / 4095)]) ∧
    ((⌊((3 : ℤ) : ℚ) * (-(1/2))⌋ : ℚ) / 4095 ≠ -1 / 4095) := by
  constructor
  · rw [set_pulse_ok _ 3 (by omega) (by omega)]
    have hc : (⌈(-(3 / 2) : ℚ)⌉ : ℤ) = -1 := by
      rw [Int.ceil_eq_iff]
      norm_num
    norm_num [py_int]
    rw [hc]
    norm_num
  · have hf : (⌊((3 : ℤ) : ℚ) * (-(1/2))⌋ : ℤ) = -2 := by
      rw [Int.floor_eq_iff]
      norm_num
    rw [hf]
    norm_num

/-- C3 (amended): set_pulse(code) fails with a range error exactly when code
is outside [0, 4095]; otherwise, with the inverted flag it replaces code by
4095 - code, and writes duty cycle int(code * scale) / 4095 to the pin, where
int() truncates toward zero (coinciding with floor for nonnegative scale);
in particular with inverted = true and scale = 1, set_pulse(0) writes duty 1
and set_pulse(4095) writes duty 0. -/
theorem set_pulse_spec (c : PulseController) (pulse : ℤ) :
    ((pulse < 0 ∨ pulse > 4095) →
        c.set_pulse pulse = .error "pulse must be in range 0 to 4095")
  ∧ (0 ≤ pulse → pulse ≤ 4095 →
        c.set_pulse pulse = .ok ({ c with started := true },
          (if c.started then [] else [HwEvent.start]) ++
          [HwEvent.dutyCycle
            ((py_int (((if c.inverted then 4095 - pulse else pulse : ℤ) : ℚ) * c.scale) : ℚ) / 4095)]))
  ∧ (c.inverted = true → c.scale = 1 → c.started = true →
        c.set_pulse 0 = .ok (c, [HwEvent.dutyCycle 1]) ∧
        c.set_pulse 4095 = .ok (c, [HwEvent.dutyCycle 0])) := by
  refine ⟨fun h => set_pulse_err c pulse h, fun h0 h1 => set_pulse_ok c pulse h0 h1, ?_⟩
  intro hinv hsc hst
  obtain ⟨sc, inv, st⟩ := c
  simp only at hinv hsc hst
  subst hinv hsc hst
  constructor
  · rw [set_pulse_ok _ 0 (by omega) (by omega)]
    norm_num [py_int]
  · rw [set_pulse_ok _ 4095 (by omega) (by omega)]
    norm_num [py_int]

/-- C3 witness: the amended spec applied at a concrete controller
(scale 1, inverted, started) and the codes 0 and 5000. -/
theorem set_pulse_spec_witness :
    (PulseController.mk 1 true true).set_pulse 0 =
      .ok (PulseController.mk 1 true true, [HwEvent.dutyCycle 1]) ∧
    (PulseController.mk 1 true true).set_pulse 5000 =
      .error "pulse must be in range 0 to 4095" :=
  ⟨((set_pulse_spec (PulseController.mk 1 true true) 0).2.2 rfl rfl rfl).1,
   (set_pulse_spec (PulseController.mk 1 true true) 5000).1 (by omega)⟩

/-- C2 counterexample: with scale = 2 (not inverted, started pin),
set_pulse 4095 writes the duty fraction 2, which is not in [0, 1]. -/
theorem set_pulse_duty_counterexample :
    (PulseController.mk 2 false true).set_pulse 4095 =
      .ok (PulseController.mk 2 false true, [HwEvent.dutyCycle 2]) ∧ ¬((2 : ℚ) ≤ 1) := by
  constructor
  · rw [set_pulse_ok _ 4095 (by omega) (by omega)]
    norm_num [py_int]
  · norm_num

/-- C2 (amended): for every PulseController whose scale factor lies in
[0, 1] (any inverted flag) and every pulse code in [0, 4095], the fraction
that set_pulse writes to the pin's duty_cycle lies in [0, 1]. -/
theorem set_pulse_duty_in_unit_interval (c : PulseController) (pulse : ℤ)
    (hs0 : 0 ≤ c.scale) (hs1 : c.scale ≤ 1) (h0 : 0 ≤ pulse) (h1 : pulse ≤ 4095) :
    ∀ c1 events, c.set_pulse pulse = .ok (c1, events) →
      ∀ d, HwEvent.dutyCycle d ∈ events → 0 ≤ d ∧ d ≤ 1 := by
  have key : ∀ x : ℚ, 0 ≤ x → x ≤ 4095 →
      0 ≤ (py_int (x * c.scale) : ℚ) / 4095 ∧ (py_int (x * c.scale) : ℚ) / 4095 ≤ 1 := by
    intro x hx0 hx4
    have hq0 : (0 : ℚ) ≤ x * c.scale := mul_nonneg hx0 hs0
    have hq4 : x * c.scale ≤ 4095 := by
      calc x * c.scale ≤ 4095 * 1 := mul_le_mul hx4 hs1 hs0 (by norm_num)
      _ = 4095 := by norm_num
    rw [py_int_of_nonneg hq0]
    refine ⟨div_nonneg ?_ (by norm_num), ?_⟩
    · exact_mod_cast Int.floor_nonneg.mpr hq0
    · rw [div_le_one (by norm_num : (0 : ℚ) < 4095)]
      exact le_trans (Int.floor_le _) hq4
  intro c1 events heq d hd
  rw [set_pulse_ok c pulse h0 h1] at heq
  rw [Except.ok.injEq, Prod.mk.injEq] at heq
  obtain ⟨-, hev⟩ := heq
  subst hev
  rcases hc : c.started <;> rcases hi : c.inverted <;> simp [hc, hi] at hd <;> subst hd
  all_goals
    first
    | exact key ((pulse : ℚ)) (by exact_mod_cast h0) (by exact_mod_cast h1)
    | · have h0q : (0 : ℚ) ≤ (pulse : ℚ) := by exact_mod_cast h0
        have h1q : ((pulse : ℚ)) ≤ 4095 := by exact_mod_cast h1
        exact key (4095 - (pulse : ℚ)) (by linarith) (by linarith)

/-- C2 witness: the amended bound applied at a concrete controller with
scale 1/2 and code 100, whose written duty fraction is 50/4095. -/
theorem set_pulse_duty_in_unit_interval_witness :
    0 ≤ (50 : ℚ) / 4095 ∧ (50 : ℚ) / 4095 ≤ 1 := by
  have heq : (PulseController.mk (1/2) false true).set_pulse 100 =
      .ok (PulseController.mk (1/2) false true, [HwEvent.dutyCycle ((50 : ℚ) / 4095)]) := by
    rw [set_pulse_ok _ 100 (by omega) (by omega)]
    norm_num [py_int]
  exact set_pulse_duty_in_unit_interval (PulseController.mk (1/2) false true) 100
    (by norm_num) (by norm_num) (by omega) (by omega) _ _ heq _ (by simp)

/-- A controller whose started flag is already set never emits a hardware
start over any sequence of valid set_pulse calls. -/
theorem set_pulses_already_started (codes : List ℤ) :
    ∀ c : PulseController, (∀ p ∈ codes, 0 ≤ p ∧ p ≤ 4095) → c.started = true →
      ∃ c2 events, c.set_pulses codes = .ok (c2, events) ∧
        startCount events = 0 ∧ c2.started = true := by
  induction codes with
  | nil => exact fun c _ hst => ⟨c, [], rfl, rfl, hst⟩
  | cons p ps ih =>
    intro c hv hst
    obtain ⟨c2, events, heq, hcnt, hst2⟩ :=
      ih { c with started := true } (fun q hq => hv q (List.mem_cons_of_mem p hq)) rfl
    have hstep := set_pulse_ok c p (hv p (List.mem_cons_self p ps)).1 (hv p (List.mem_cons_self p ps)).2
    rw [hst] at hstep
    rw [if_pos rfl] at hstep
    refine ⟨c2, ([] ++ [HwEvent.dutyCycle
        ((py_int (((if c.inverted then 4095 - p else p : ℤ) : ℚ) * c.scale) : ℚ) / 4095)]) ++ events,
      ?_, ?_, hst2⟩
    · simp only [PulseController.set_pulses]
      rw [hstep]
      dsimp only
      rw [heq]
    · simp only [startCount] at hcnt ⊢
      simp [List.countP_append, List.countP_cons, hcnt]

/-- C4: across the lifetime of one PulseController constructed over a pin in
state pin_state, a nonempty sequence of valid set_pulse calls invokes the
hardware start() exactly once if the pin was NOT_STARTED at construction and
never otherwise. -/
theorem set_pulse_start_exactly_once (pin_state : PinState) (scale : ℚ) (inv : Bool)
    (codes : List ℤ) (hv : ∀ p ∈ codes, 0 ≤ p ∧ p ≤ 4095) (hne : codes ≠ []) :
    ∃ c2 events, (PulseController.init pin_state scale inv).set_pulses codes = .ok (c2, events) ∧
      startCount events = (if pin_state = PinState.NOT_STARTED then 1 else 0) := by
  obtain ⟨p, ps, rfl⟩ := List.exists_cons_of_ne_nil hne
  cases pin_state with
  | NOT_STARTED =>
    obtain ⟨c2, events, heq, hcnt, -⟩ :=
      set_pulses_already_started ps
        { PulseController.init PinState.NOT_STARTED scale inv with started := true }
        (fun q hq => hv q (List.mem_cons_of_mem p hq)) rfl
    have hstep := set_pulse_ok (PulseController.init PinState.NOT_STARTED scale inv) p
      (hv p (List.mem_cons_self p ps)).1 (hv p (List.mem_cons_self p ps)).2
    have hst : (PulseController.init PinState.NOT_STARTED scale inv).started = false := by
      simp [PulseController.init]
    rw [hst] at hstep
    rw [if_neg Bool.false_ne_true] at hstep
    refine ⟨c2, ([HwEvent.start] ++ [HwEvent.dutyCycle
        ((py_int (((if (PulseController.init PinState.NOT_STARTED scale inv).inverted
            then 4095 - p else p : ℤ) : ℚ)
          * (PulseController.init PinState.NOT_STARTED scale inv).scale) : ℚ) / 4095)]) ++ events,
      ?_, ?_⟩
    · simp only [PulseController.set_pulses]
      rw [hstep]
      dsimp only
      rw [heq]
    · simp only [startCount] at hcnt ⊢
      simp [List.countP_append, List.countP_cons, hcnt]
  | STARTED =>
    obtain ⟨c2, events, heq, hcnt, -⟩ :=
      set_pulses_already_started (p :: ps) (PulseController.init PinState.STARTED scale inv)
        hv (by simp [PulseController.init])
    exact ⟨c2, events, heq, by simp [hcnt]⟩

/-- C4 witness: a fresh controller over a NOT_STARTED pin, driven with two
valid codes, starts the hardware exactly once. -/
theorem set_pulse_start_exactly_once_witness :
    ∃ c2 events,
      (PulseController.init PinState.NOT_STARTED 1 false).set_pulses [1000, 2000] =
        .ok (c2, events) ∧
      startCount events = (if PinState.NOT_STARTED = PinState.NOT_STARTED then 1 else 0) :=
  set_pulse_start_exactly_once PinState.NOT_STARTED 1 false [1000, 2000]
    (by intro p hp; simp at hp; rcases hp with rfl | rfl <;> omega) (by simp)

/-- The pin-driver events of a single successful set_pulse call contain no
actuator-level events. -/
theorem ctrlLevel_set_pulse_events (c : PulseController) (pulse : ℤ)
    (h0 : 0 ≤ pulse) (h1 : pulse ≤ 4095) :
    ∃ evs, c.set_pulse pulse = .ok ({ c with started := true }, evs) ∧
      evs.filter ctrlLevel = [] := by
  refine ⟨_, set_pulse_ok c pulse h0 h1, ?_⟩
  rcases hc : c.started <;> simp [hc, ctrlLevel, List.filter_append]

/-- C7: ThrottleActuator construction issues exactly three pulses to the
controller, in order max_pulse, min_pulse, zero_pulse, with a 10 ms wait
after the first, a 10 ms wait after the second and a 1000 ms wait after the
third, before construction completes. -/
theorem throttle_init_calibration (ctrl : PulseController) (max_pulse min_pulse zero_pulse : ℤ)
    (hmax0 : 0 ≤ max_pulse) (hmax1 : max_pulse ≤ 4095)
    (hmin0 : 0 ≤ min_pulse) (hmin1 : min_pulse ≤ 4095)
    (hzero0 : 0 ≤ zero_pulse) (hzero1 : zero_pulse ≤ 4095) :
    ∃ t events, PWMThrottle.init ctrl max_pulse min_pulse zero_pulse = .ok (t, events) ∧
      events.filter ctrlLevel =
        [HwEvent.ctrlSetPulse max_pulse, HwEvent.sleepMs 10,
         HwEvent.ctrlSetPulse min_pulse, HwEvent.sleepMs 10,
         HwEvent.ctrlSetPulse zero_pulse, HwEvent.sleepMs 1000] := by
  obtain ⟨sc, inv, st⟩ := ctrl
  obtain ⟨e1, h1, f1⟩ :=
    ctrlLevel_set_pulse_events (PulseController.mk sc inv st) max_pulse hmax0 hmax1
  obtain ⟨e2, h2, f2⟩ :=
    ctrlLevel_set_pulse_events (PulseController.mk sc inv true) min_pulse hmin0 hmin1
  obtain ⟨e3, h3, f3⟩ :=
    ctrlLevel_set_pulse_events (PulseController.mk sc inv true) zero_pulse hzero0 hzero1
  refine ⟨PWMThrottle.mk (PulseController.mk sc inv true) max_pulse min_pulse zero_pulse
      zero_pulse true,
    [HwEvent.ctrlSetPulse max_pulse] ++ e1 ++ [HwEvent.sleepMs 10]
      ++ [HwEvent.ctrlSetPulse min_pulse] ++ e2 ++ [HwEvent.sleepMs 10]
      ++ [HwEvent.ctrlSetPulse zero_pulse] ++ e3 ++ [HwEvent.sleepMs 1000], ?_, ?_⟩
  · simp only [PWMThrottle.init]
    rw [h1]
    dsimp only
    rw [h2]
    dsimp only
    rw [h3]
  · simp [List.filter_append, f1, f2, f3, ctrlLevel]

/-- C7 witness: the calibration trace for a fresh controller and the
concrete endpoints 400 (max), 200 (min), 300 (zero). -/
theorem throttle_init_calibration_witness :
    ∃ t events,
      PWMThrottle.init (PulseController.init PinState.NOT_STARTED 1 false) 400 200 300 =
        .ok (t, events) ∧
      events.filter ctrlLevel =
        [HwEvent.ctrlSetPulse 400, HwEvent.sleepMs 10, HwEvent.ctrlSetPulse 200,
         HwEvent.sleepMs 10, HwEvent.ctrlSetPulse 300, HwEvent.sleepMs 1000] :=
  throttle_init_calibration (PulseController.init PinState.NOT_STARTED 1 false) 400 200 300
    (by omega) (by omega) (by omega) (by omega) (by omega) (by omega)

/-- Python int() is the identity on mathematical integers. -/
theorem py_int_intCast (n : ℤ) : py_int (n : ℚ) = n := by
  unfold py_int
  split
  · exact Int.floor_intCast n
  · exact Int.ceil_intCast n

/-- run_threaded of the steering actuator, unfolded via map_range. -/
theorem steering_run_threaded_ok (s : PWMSteering) (angle : ℚ)
    (hne : s.left_pulse ≠ s.right_pulse) :
    s.run_threaded angle = .ok ({ s with pulse :=
      ⌊(angle - PWMSteering.LEFT_ANGLE) * ((s.right_pulse : ℚ) - (s.left_pulse : ℚ))
        / (PWMSteering.RIGHT_ANGLE - PWMSteering.LEFT_ANGLE) + (s.left_pulse : ℚ)⌋ }, []) := by
  have hY : ((s.right_pulse : ℚ)) - (s.left_pulse : ℚ) ≠ 0 := by
    intro h
    have h2 := sub_eq_zero.mp h
    exact hne (by exact_mod_cast h2.symm)
  have hX : PWMSteering.RIGHT_ANGLE - PWMSteering.LEFT_ANGLE ≠ 0 := by
    norm_num [PWMSteering.RIGHT_ANGLE, PWMSteering.LEFT_ANGLE]
  simp only [PWMSteering.run_threaded]
  rw [map_range_ok _ _ _ _ _ hY hX]

/-- run_threaded of the throttle actuator on the forward segment. -/
theorem throttle_run_threaded_pos (t : PWMThrottle) (throttle : ℚ) (hpos : 0 < throttle)
    (hne : t.zero_pulse ≠ t.max_pulse) :
    t.run_threaded throttle = .ok ({ t with pulse :=
      ⌊(throttle - 0) * ((t.max_pulse : ℚ) - (t.zero_pulse : ℚ))
        / (PWMThrottle.MAX_THROTTLE - 0) + (t.zero_pulse : ℚ)⌋ }, []) := by
  have hY : ((t.max_pulse : ℚ)) - (t.zero_pulse : ℚ) ≠ 0 := by
    intro h
    have h2 := sub_eq_zero.mp h
    exact hne (by exact_mod_cast h2.symm)
  have hX : PWMThrottle.MAX_THROTTLE - (0 : ℚ) ≠ 0 := by
    norm_num [PWMThrottle.MAX_THROTTLE]
  simp only [PWMThrottle.run_threaded]
  rw [if_pos hpos, map_range_ok _ _ _ _ _ hY hX]

/-- run_threaded of the throttle actuator on the reverse segment. -/
theorem throttle_run_threaded_nonpos (t : PWMThrottle) (throttle : ℚ) (hle : throttle ≤ 0)
    (hne : t.min_pulse ≠ t.zero_pulse) :
    t.run_threaded throttle = .ok ({ t with pulse :=
      ⌊(throttle - PWMThrottle.MIN_THROTTLE) * ((t.zero_pulse : ℚ) - (t.min_pulse : ℚ))
        / (0 - PWMThrottle.MIN_THROTTLE) + (t.min_pulse : ℚ)⌋ }, []) := by
  have hY : ((t.zero_pulse : ℚ)) - (t.min_pulse : ℚ) ≠ 0 := by
    intro h
    have h2 := sub_eq_zero.mp h
    exact hne (by exact_mod_cast h2.symm)
  have hX : (0 : ℚ) - PWMThrottle.MIN_THROTTLE ≠ 0 := by
    norm_num [PWMThrottle.MIN_THROTTLE]
  simp only [PWMThrottle.run_threaded]
  rw [if_neg (not_lt.mpr hle), map_range_ok _ _ _ _ _ hY hX]

/-- C5: for a SteeringActuator with PulseCode endpoints and a distinct
left/right range, set_target(angle) with angle in [-1, 1] stores the Python
int() truncation of left_pulse + (angle - (-1)) / (1 - (-1)) *
(right_pulse - left_pulse); in particular set_target(-1) stores left_pulse,
set_target(1) stores right_pulse and set_target(0) stores the truncated
midpoint; no controller or pin call is made (empty trace). -/
theorem steering_set_target_spec (s : PWMSteering)
    (hl0 : 0 ≤ s.left_pulse) (hr0 : 0 ≤ s.right_pulse)
    (hne : s.left_pulse ≠ s.right_pulse) :
    (∀ angle : ℚ, -1 ≤ angle → angle ≤ 1 →
       s.run_threaded angle = .ok ({ s with pulse := (py_int ((s.left_pulse : ℚ)
           + (angle - (-1)) / (1 - (-1)) * ((s.right_pulse : ℚ) - (s.left_pulse : ℚ)))) }, []))
  ∧ s.run_threaded (-1) = .ok ({ s with pulse := s.left_pulse }, [])
  ∧ s.run_threaded 1 = .ok ({ s with pulse := s.right_pulse }, [])
  ∧ s.run_threaded 0 = .ok ({ s with
       pulse := (py_int (((s.left_pulse : ℚ) + (s.right_pulse : ℚ)) / 2)) }, []) := by
  have hlq : (0 : ℚ) ≤ (s.left_pulse : ℚ) := by exact_mod_cast hl0
  have hrq : (0 : ℚ) ≤ (s.right_pulse : ℚ) := by exact_mod_cast hr0
  have main : ∀ angle : ℚ, -1 ≤ angle → angle ≤ 1 →
      s.run_threaded angle = .ok ({ s with pulse := (py_int ((s.left_pulse : ℚ)
          + (angle - (-1)) / (1 - (-1)) * ((s.right_pulse : ℚ) - (s.left_pulse : ℚ)))) }, []) := by
    intro angle ha1 ha2
    rw [steering_run_threaded_ok s angle hne]
    have hq0 : (0 : ℚ) ≤ (s.left_pulse : ℚ)
        + (angle - (-1)) / (1 - (-1)) * ((s.right_pulse : ℚ) - (s.left_pulse : ℚ)) := by
      nlinarith [mul_nonneg hlq (by linarith : (0 : ℚ) ≤ 1 - angle),
                 mul_nonneg hrq (by linarith : (0 : ℚ) ≤ angle + 1)]
    rw [py_int_of_nonneg hq0]
    have harg : (angle - PWMSteering.LEFT_ANGLE) * ((s.right_pulse : ℚ) - (s.left_pulse : ℚ))
          / (PWMSteering.RIGHT_ANGLE - PWMSteering.LEFT_ANGLE) + (s.left_pulse : ℚ)
        = (s.left_pulse : ℚ)
          + (angle - (-1)) / (1 - (-1)) * ((s.right_pulse : ℚ) - (s.left_pulse : ℚ)) := by
      simp only [PWMSteering.LEFT_ANGLE, PWMSteering.RIGHT_ANGLE]
      ring
    rw [harg]
  refine ⟨main, ?_, ?_, ?_⟩
  · have h := main (-1) (by norm_num) (by norm_num)
    have harg : (s.left_pulse : ℚ)
        + ((-1 : ℚ) - (-1)) / (1 - (-1)) * ((s.right_pulse : ℚ) - (s.left_pulse : ℚ))
        = ((s.left_pulse : ℤ) : ℚ) := by ring
    rw [harg, py_int_intCast] at h
    exact h
  · have h := main 1 (by norm_num) (by norm_num)
    have harg : (s.left_pulse : ℚ)
        + ((1 : ℚ) - (-1)) / (1 - (-1)) * ((s.right_pulse : ℚ) - (s.left_pulse : ℚ))
        = ((s.right_pulse : ℤ) : ℚ) := by ring
    rw [harg, py_int_intCast] at h
    exact h
  · have h := main 0 (by norm_num) (by norm_num)
    have harg : (s.left_pulse : ℚ)
        + ((0 : ℚ) - (-1)) / (1 - (-1)) * ((s.right_pulse : ℚ) - (s.left_pulse : ℚ))
        = ((s.left_pulse : ℚ) + (s.right_pulse : ℚ)) / 2 := by ring
    rw [harg] at h
    exact h

/-- C5 witness: the midpoint case at the concrete steering configuration
left_pulse = 300, right_pulse = 400. -/
theorem steering_set_target_spec_witness :
    ∃ X : ℤ,
      (PWMSteering.mk (PulseController.init PinState.STARTED 1 false)
          300 400 350 true).run_threaded 0 =
        .ok ({ PWMSteering.mk (PulseController.init PinState.STARTED 1 false)
            300 400 350 true with pulse := X }, []) :=
  ⟨_, (steering_set_target_spec
    (PWMSteering.mk (PulseController.init PinState.STARTED 1 false) 300 400 350 true)
    (by decide) (by decide) (by decide)).2.2.2⟩

/-- C6: for a ThrottleActuator with PulseCode endpoints and non-degenerate
segments, set_target(throttle) with throttle > 0 stores the (truncated)
linear interpolation between zero_pulse and max_pulse over [0, 1], and with
throttle <= 0 the interpolation between min_pulse and zero_pulse over
[-1, 0]; in particular set_target(0) stores zero_pulse, set_target(1) stores
max_pulse and set_target(-1) stores min_pulse. -/
theorem throttle_set_target_spec (t : PWMThrottle)
    (hmin0 : 0 ≤ t.min_pulse) (hzero0 : 0 ≤ t.zero_pulse) (hmax0 : 0 ≤ t.max_pulse)
    (hfz : t.zero_pulse ≠ t.max_pulse) (hrz : t.min_pulse ≠ t.zero_pulse) :
    (∀ th : ℚ, 0 < th → th ≤ 1 →
       t.run_threaded th = .ok ({ t with pulse := (py_int ((t.zero_pulse : ℚ)
           + (th - 0) / (1 - 0) * ((t.max_pulse : ℚ) - (t.zero_pulse : ℚ)))) }, []))
  ∧ (∀ th : ℚ, -1 ≤ th → th ≤ 0 →
       t.run_threaded th = .ok ({ t with pulse := (py_int ((t.min_pulse : ℚ)
           + (th - (-1)) / (0 - (-1)) * ((t.zero_pulse : ℚ) - (t.min_pulse : ℚ)))) }, []))
  ∧ t.run_threaded 0 = .ok ({ t with pulse := t.zero_pulse }, [])
  ∧ t.run_threaded 1 = .ok ({ t with pulse := t.max_pulse }, [])
  ∧ t.run_threaded (-1) = .ok ({ t with pulse := t.min_pulse }, []) := by
  have hmq : (0 : ℚ) ≤ (t.min_pulse : ℚ) := by exact_mod_cast hmin0
  have hzq : (0 : ℚ) ≤ (t.zero_pulse : ℚ) := by exact_mod_cast hzero0
  have hxq : (0 : ℚ) ≤ (t.max_pulse : ℚ) := by exact_mod_cast hmax0
  have mainpos : ∀ th : ℚ, 0 < th → th ≤ 1 →
      t.run_threaded th = .ok ({ t with pulse := (py_int ((t.zero_pulse : ℚ)
          + (th - 0) / (1 - 0) * ((t.max_pulse : ℚ) - (t.zero_pulse : ℚ)))) }, []) := by
    intro th h1 h2
    rw [throttle_run_threaded_pos t th h1 hfz]
    have hq0 : (0 : ℚ) ≤ (t.zero_pulse : ℚ)
        + (th - 0) / (1 - 0) * ((t.max_pulse : ℚ) - (t.zero_pulse : ℚ)) := by
      nlinarith [mul_nonneg hzq (by linarith : (0 : ℚ) ≤ 1 - th),
                 mul_nonneg hxq (by linarith : (0 : ℚ) ≤ th)]
    rw [py_int_of_nonneg hq0]
    have harg : (th - 0) * ((t.max_pulse : ℚ) - (t.zero_pulse : ℚ))
          / (PWMThrottle.MAX_THROTTLE - 0) + (t.zero_pulse : ℚ)
        = (t.zero_pulse : ℚ)
          + (th - 0) / (1 - 0) * ((t.max_pulse : ℚ) - (t.zero_pulse : ℚ)) := by
      simp only [PWMThrottle.MAX_THROTTLE]
      ring
    rw [harg]
  have mainneg : ∀ th : ℚ, -1 ≤ th → th ≤ 0 →
      t.run_threaded th = .ok ({ t with pulse := (py_int ((t.min_pulse : ℚ)
          + (th - (-1)) / (0 - (-1)) * ((t.zero_pulse : ℚ) - (t.min_pulse : ℚ)))) }, []) := by
    intro th h1 h2
    rw [throttle_run_threaded_nonpos t th h2 hrz]
    have hq0 : (0 : ℚ) ≤ (t.min_pulse : ℚ)
        + (th - (-1)) / (0 - (-1)) * ((t.zero_pulse : ℚ) - (t.min_pulse : ℚ)) := by
      nlinarith [mul_nonneg hmq (by linarith : (0 : ℚ) ≤ 0 - th),
                 mul_nonneg hzq (by linarith : (0 : ℚ) ≤ th + 1)]
    rw [py_int_of_nonneg hq0]
    have harg : (th - PWMThrottle.MIN_THROTTLE) * ((t.zero_pulse : ℚ) - (t.min_pulse : ℚ))
          / (0 - PWMThrottle.MIN_THROTTLE) + (t.min_pulse : ℚ)
        = (t.min_pulse : ℚ)
          + (th - (-1)) / (0 - (-1)) * ((t.zero_pulse : ℚ) - (t.min_pulse : ℚ)) := by
      simp only [PWMThrottle.MIN_THROTTLE]
      ring
    rw [harg]
  refine ⟨mainpos, mainneg, ?_, ?_, ?_⟩
  · have h := mainneg 0 (by norm_num) (by norm_num)
    have harg : (t.min_pulse : ℚ)
        + ((0 : ℚ) - (-1)) / (0 - (-1)) * ((t.zero_pulse : ℚ) - (t.min_pulse : ℚ))
        = ((t.zero_pulse : ℤ) : ℚ) := by ring
    rw [harg, py_int_intCast] at h
    exact h
  · have h := mainpos 1 (by norm_num) (by norm_num)
    have harg : (t.zero_pulse : ℚ)
        + ((1 : ℚ) - 0) / (1 - 0) * ((t.max_pulse : ℚ) - (t.zero_pulse : ℚ))
        = ((t.max_pulse : ℤ) : ℚ) := by ring
    rw [harg, py_int_intCast] at h
    exact h
  · have h := mainneg (-1) (by norm_num) (by norm_num)
    have harg : (t.min_pulse : ℚ)
        + ((-1 : ℚ) - (-1)) / (0 - (-1)) * ((t.zero_pulse : ℚ) - (t.min_pulse : ℚ))
        = ((t.min_pulse : ℤ) : ℚ) := by ring
    rw [harg, py_int_intCast] at h
    exact h

/-- C6 witness: the zero-throttle case at the concrete configuration
max_pulse = 500, min_pulse = 220, zero_pulse = 370. -/
theorem throttle_set_target_spec_witness :
    (PWMThrottle.mk (PulseController.init PinState.STARTED 1 false)
        500 220 370 370 true).run_threaded 0 =
      .ok ({ PWMThrottle.mk (PulseController.init PinState.STARTED 1 false)
          500 220 370 370 true with pulse := 370 }, []) :=
  (throttle_set_target_spec
    (PWMThrottle.mk (PulseController.init PinState.STARTED 1 false) 500 220 370 370 true)
    (by decide) (by decide) (by decide) (by decide) (by decide)).2.2.1

/-- A successful throttle shutdown: stores zero_pulse, drives it once
(starting the controller if necessary) and clears running. -/
theorem throttle_shutdown_ok (t : PWMThrottle)
    (h0 : 0 ≤ t.zero_pulse) (h1 : t.zero_pulse ≤ 4095) (hrz : t.min_pulse ≠ t.zero_pulse) :
    ∃ events, t.shutdown = .ok (PWMThrottle.mk { t.controller with started := true }
      t.max_pulse t.min_pulse t.zero_pulse t.zero_pulse false, events) := by
  refine ⟨[] ++ [HwEvent.ctrlSetPulse t.zero_pulse] ++
      ((if t.controller.started then [] else [HwEvent.start]) ++
       [HwEvent.dutyCycle ((py_int (((if t.controller.inverted then 4095 - t.zero_pulse
           else t.zero_pulse : ℤ) : ℚ) * t.controller.scale) : ℚ) / 4095)]), ?_⟩
  simp only [PWMThrottle.shutdown, PWMThrottle.run]
  rw [throttle_run_threaded_nonpos t 0 le_rfl hrz]
  have harg : ((0 : ℚ) - PWMThrottle.MIN_THROTTLE) * ((t.zero_pulse : ℚ) - (t.min_pulse : ℚ))
        / (0 - PWMThrottle.MIN_THROTTLE) + (t.min_pulse : ℚ) = ((t.zero_pulse : ℤ) : ℚ) := by
    simp only [PWMThrottle.MIN_THROTTLE]
    ring
  rw [harg, Int.floor_intCast]
  dsimp only
  rw [set_pulse_ok t.controller t.zero_pulse h0 h1]

/-- C9: on both actuators a second shutdown immediately after a first one
raises no error and leaves running = false. (The steering shutdown is total;
the throttle one can only raise through set_pulse, whose success is
guaranteed by the same conditions that let construction succeed.) -/
theorem shutdown_twice_spec :
    (∀ s : PWMSteering, (((s.shutdown).1).shutdown).1.running = false)
  ∧ (∀ t : PWMThrottle, 0 ≤ t.zero_pulse → t.zero_pulse ≤ 4095 →
       t.min_pulse ≠ t.zero_pulse →
       ∃ t1 e1 t2 e2, t.shutdown = .ok (t1, e1) ∧ t1.shutdown = .ok (t2, e2) ∧
         t1.running = false ∧ t2.running = false) := by
  constructor
  · intro s
    rfl
  · intro t h0 h1 hrz
    obtain ⟨e1, he1⟩ := throttle_shutdown_ok t h0 h1 hrz
    obtain ⟨e2, he2⟩ := throttle_shutdown_ok (PWMThrottle.mk
      { t.controller with started := true }
      t.max_pulse t.min_pulse t.zero_pulse t.zero_pulse false) h0 h1 hrz
    exact ⟨_, e1, _, e2, he1, he2, rfl, rfl⟩

/-- C9 witness: two consecutive shutdowns on a concrete throttle actuator. -/
theorem shutdown_twice_spec_witness :
    ∃ t1 e1 t2 e2,
      (PWMThrottle.mk (PulseController.init PinState.STARTED 1 false)
          500 220 370 370 true).shutdown = .ok (t1, e1) ∧
      t1.shutdown = .ok (t2, e2) ∧ t1.running = false ∧ t2.running = false :=
  shutdown_twice_spec.2
    (PWMThrottle.mk (PulseController.init PinState.STARTED 1 false) 500 220 370 370 true)
    (by decide) (by decide) (by decide)

/-- C10: map_range divides by the output range, so equal segment endpoints
raise a division-by-zero error instead of returning a pulse code: at
steering construction with left_pulse = right_pulse, at steering set_target,
and at throttle set_target on a degenerate forward (max = zero) or reverse
(zero = min) segment. -/
theorem map_range_zero_output_range :
    (∀ (ctrl : PulseController) (lp : ℤ),
        PWMSteering.init ctrl lp lp = .error "division by zero")
  ∧ (∀ (s : PWMSteering) (angle : ℚ), s.left_pulse = s.right_pulse →
        s.run_threaded angle = .error "division by zero")
  ∧ (∀ (t : PWMThrottle) (th : ℚ), 0 < th → t.max_pulse = t.zero_pulse →
        t.run_threaded th = .error "division by zero")
  ∧ (∀ (t : PWMThrottle) (th : ℚ), th ≤ 0 → t.zero_pulse = t.min_pulse →
        t.run_threaded th = .error "division by zero") := by
  refine ⟨?_, ?_, ?_, ?_⟩
  · intro ctrl lp
    simp only [PWMSteering.init]
    rw [map_range_zero_Yrange _ _ _ _ _ (by ring)]
  · intro s angle h
    simp only [PWMSteering.run_threaded]
    rw [map_range_zero_Yrange _ _ _ _ _ (by rw [h]; ring)]
  · intro t th hpos h
    simp only [PWMThrottle.run_threaded]
    rw [if_pos hpos, map_range_zero_Yrange _ _ _ _ _ (by rw [h]; ring)]
  · intro t th hle h
    simp only [PWMThrottle.run_threaded]
    rw [if_neg (not_lt.mpr hle), map_range_zero_Yrange _ _ _ _ _ (by rw [h]; ring)]

/-- C10 witness: a steering actuator constructed with equal endpoints and a
throttle actuator with max_pulse = zero_pulse driven forward both raise. -/
theorem map_range_zero_output_range_witness :
    PWMSteering.init (PulseController.init PinState.STARTED 1 false) 333 333 =
      .error "division by zero" ∧
    (PWMThrottle.mk (PulseController.init PinState.STARTED 1 false)
        370 220 370 370 true).run_threaded (1/2) = .error "division by zero" :=
  ⟨map_range_zero_output_range.1 (PulseController.init PinState.STARTED 1 false) 333,
   map_range_zero_output_range.2.2.1
     (PWMThrottle.mk (PulseController.init PinState.STARTED 1 false) 370 220 370 370 true)
     (1/2) (by norm_num) rfl⟩

/-- C1 (evaluating the code at a failing input): with left_pulse = 300 and
right_pulse = 400 the pulse for angle 0 is 350 (as construction computes),
yet shutdown stores the raw code 0 as the target --- not the straight-ahead
pulse --- before its 300 ms wait and clearing of the running flag. -/
theorem steering_shutdown_sets_raw_zero :
    PWMSteering.init (PulseController.init PinState.NOT_STARTED 1 false) 300 400 =
      .ok (PWMSteering.mk (PulseController.init PinState.NOT_STARTED 1 false)
        300 400 350 true) ∧
    ((PWMSteering.mk (PulseController.init PinState.NOT_STARTED 1 false)
        300 400 350 true).shutdown).1.pulse = 0 ∧
    ((PWMSteering.mk (PulseController.init PinState.NOT_STARTED 1 false)
        300 400 350 true).shutdown).1.running = false ∧
    ((PWMSteering.mk (PulseController.init PinState.NOT_STARTED 1 false)
        300 400 350 true).shutdown).2 = [HwEvent.sleepMs 300] ∧
    map_range 0 PWMSteering.LEFT_ANGLE PWMSteering.RIGHT_ANGLE ((300 : ℤ) : ℚ) ((400 : ℤ) : ℚ)
      = .ok 350 ∧
    (0 : ℤ) ≠ 350 := by
  have hmr : map_range 0 PWMSteering.LEFT_ANGLE PWMSteering.RIGHT_ANGLE
      ((300 : ℤ) : ℚ) ((400 : ℤ) : ℚ) = .ok 350 := by
    rw [map_range_ok _ _ _ _ _ (by norm_num)
      (by norm_num [PWMSteering.LEFT_ANGLE, PWMSteering.RIGHT_ANGLE])]
    simp only [Except.ok.injEq]
    norm_num [PWMSteering.LEFT_ANGLE, PWMSteering.RIGHT_ANGLE]
  refine ⟨?_, rfl, rfl, rfl, hmr, by omega⟩
  simp only [PWMSteering.init]
  rw [hmr]
